import Mathlib

/-!
Shallow embedding of `src/script.js` (Word Constellations).

Numbers are modelled as real numbers.  JavaScript's `undefined`/`NaN`
velocity values are modelled by `Option ℝ`: the `Node` constructor in the
source never initialises `vx`/`vy`, so they start as `none`; every write in
the source has the form `a.vx += e`, which is `Option.map (· + e)` (for a
JS number `undefined + e` and `NaN + e` are both `NaN`, i.e. stay `none`).
`Math.random()` draws are passed in explicitly as parameters in `[0,1)`;
`rand a b r` is the source's `rand(a, b)` with `r` the draw.
`performance.now()` is passed in as the parameter `now`.
-/

namespace WordConstellations

noncomputable section

open Real

/-- `Math.hypot(dx, dy)` for two arguments. -/
def hypot (x y : ℝ) : ℝ := Real.sqrt (x * x + y * y)

/-- `rand(a, b) = a + Math.random() * (b - a)`, with `r` the `Math.random()` draw. -/
def rand (a b r : ℝ) : ℝ := a + r * (b - a)

/-- `noise2(x, y)` from script.js:41-44; `STATE.noiseSeed` passed explicitly. -/
def noise2 (seed x y : ℝ) : ℝ :=
  let s := Real.sin (x * 12.9898 + y * 78.233 + seed) * 43758.5453
  s - ⌊s⌋

-- Physics parameters, script.js:80-98.
namespace PHYS

def globalDrag : ℝ := 0.98
def softAttract : ℝ := 2.0e-2
def minLinkDistance : ℝ := 48
def maxLinkDistance : ℝ := 320
def curveBend : ℝ := 0.16
/-- Trail capacity, compared against a list length, hence `ℕ`. -/
def trailKeep : ℕ := 40
def trailFade : ℝ := 0.06
def orbitFreq : ℝ := 0.6
def orbitAmp : ℝ := 6
def noiseStrength : ℝ := 0.3
def turbulenceFreq : ℝ := 0.003
def repulsionStrength : ℝ := 5.0e-2
def repulsionDistance : ℝ := 24
def angularVelocity : ℝ := 0.02
def constellationDistance : ℝ := 120
def orbitDrift : ℝ := 0.1
def centerDrift : ℝ := 0.05

end PHYS

/-- A trail sample `{x, y, t}` (script.js:240). -/
abbrev TrailSample := ℝ × ℝ × ℝ

/-- The `Node` class state, script.js:47-77. -/
structure Node where
  text : String
  x : ℝ
  y : ℝ
  /-- Never initialised by the constructor; `none` models JS `undefined`/`NaN`. -/
  vx : Option ℝ
  /-- Never initialised by the constructor; `none` models JS `undefined`/`NaN`. -/
  vy : Option ℝ
  mass : ℝ
  radius : ℝ
  hue : ℝ
  trail : List TrailSample
  angle : ℝ
  angularVel : ℝ
  turbulencePhase : ℝ
  inConstellation : Bool
  orbitCenterX : ℝ
  orbitCenterY : ℝ
  orbitRadius : ℝ
  orbitSpeed : ℝ
  orbitDirection : ℝ
  orbitPhase : ℝ
  secondaryCenterX : ℝ
  secondaryCenterY : ℝ
  secondaryRadius : ℝ
  secondarySpeed : ℝ
  secondaryDirection : ℝ
  secondaryPhase : ℝ

/-- A placeholder node (out-of-range index reads never happen in the source). -/
def defaultNode : Node where
  text := ""
  x := 0
  y := 0
  vx := none
  vy := none
  mass := 0
  radius := 0
  hue := 0
  trail := []
  angle := 0
  angularVel := 0
  turbulencePhase := 0
  inConstellation := false
  orbitCenterX := 0
  orbitCenterY := 0
  orbitRadius := 0
  orbitSpeed := 0
  orbitDirection := 0
  orbitPhase := 0
  secondaryCenterX := 0
  secondaryCenterY := 0
  secondaryRadius := 0
  secondarySpeed := 0
  secondaryDirection := 0
  secondaryPhase := 0

instance : Inhabited Node := ⟨defaultNode⟩

/-- A link record `{i, j, d}` (script.js:118). -/
structure Link where
  i : ℕ
  j : ℕ
  d : ℝ

/-- The global `STATE` object (script.js:12-19), minus render-only members. -/
structure SimState where
  width : ℝ
  height : ℝ
  nodes : List Node
  links : List Link
  noiseSeed : ℝ

/-- The `Math.random()` draws consumed by the `Node` constructor
(script.js:48-76), in source order, each in `[0,1)`. -/
structure CreateRand where
  rMass : ℝ
  rHue : ℝ
  rAngle : ℝ
  rAngularVel : ℝ
  rTurbulence : ℝ
  rOrbitCenterX : ℝ
  rOrbitCenterY : ℝ
  rOrbitRadius : ℝ
  rOrbitSpeed : ℝ
  rOrbitDirection : ℝ
  rOrbitPhase : ℝ
  rSecondaryCenterX : ℝ
  rSecondaryCenterY : ℝ
  rSecondaryRadius : ℝ
  rSecondarySpeed : ℝ
  rSecondaryDirection : ℝ
  rSecondaryPhase : ℝ

/-- The `Node` constructor, script.js:48-76.  `vx`/`vy` are never assigned. -/
def Node.create (text : String) (x y : ℝ) (r : CreateRand) : Node :=
  let mass := rand 0.6 1.6 r.rMass
  let orbitCenterX := x + rand (-200) 200 r.rOrbitCenterX
  let orbitCenterY := y + rand (-200) 200 r.rOrbitCenterY
  { text := text
    x := x
    y := y
    vx := none
    vy := none
    mass := mass
    radius := 8 + mass * 3.5
    hue := rand 215 235 r.rHue
    trail := []
    angle := rand 0 (Real.pi * 2) r.rAngle
    angularVel := rand 0.02 0.08 r.rAngularVel
    turbulencePhase := rand 0 (Real.pi * 2) r.rTurbulence
    inConstellation := false
    orbitCenterX := orbitCenterX
    orbitCenterY := orbitCenterY
    orbitRadius := rand 120 300 r.rOrbitRadius
    orbitSpeed := rand 0.3 1.2 r.rOrbitSpeed
    orbitDirection := if rand (-1) 1 r.rOrbitDirection > 0 then 1 else -1
    orbitPhase := rand 0 (Real.pi * 2) r.rOrbitPhase
    secondaryCenterX := orbitCenterX + rand (-80) 80 r.rSecondaryCenterX
    secondaryCenterY := orbitCenterY + rand (-80) 80 r.rSecondaryCenterY
    secondaryRadius := rand 60 150 r.rSecondaryRadius
    secondarySpeed := rand 0.8 2.5 r.rSecondarySpeed
    secondaryDirection := if rand (-1) 1 r.rSecondaryDirection > 0 then 1 else -1
    secondaryPhase := rand 0 (Real.pi * 2) r.rSecondaryPhase }

/-- The index pairs `(i, j)` with `i < j < n` visited by the nested loops of
`rebuildLinks` (script.js:109-110) and of the force pass (script.js:135-137),
in loop order. -/
def pairIndices (n : ℕ) : List (ℕ × ℕ) :=
  (List.range n).flatMap fun i =>
    (List.range' (i + 1) (n - (i + 1))).map fun j => (i, j)

/-- `rebuildLinks()`, script.js:106-123, as a function of the node list. -/
def rebuildLinks (nodes : List Node) : List Link :=
  (pairIndices nodes.length).filterMap fun p =>
    let a := nodes.getD p.1 default
    let b := nodes.getD p.2 default
    let dx := b.x - a.x
    let dy := b.y - a.y
    let d := hypot dx dy
    if d < PHYS.constellationDistance then some ⟨p.1, p.2, d⟩ else none

/-- The `Math.random()` draws one node may consume during `step`
(script.js:219, 224, 228, 232, 236): the angular-velocity walk and the
wrap-time orbit-center reassignment on each axis. -/
structure StepRand where
  rAngularVel : ℝ
  rWrapX : ℝ
  rWrapY : ℝ

/-- The body of the pairwise force loop, script.js:138-175, for the pair
`(i, j)`: reads nodes `i` and `j`, writes their `inConstellation`, `vx`, `vy`. -/
def pairUpdate (dt : ℝ) (i j : ℕ) (ns : List Node) : List Node :=
  let a := ns.getD i default
  let b := ns.getD j default
  let dx := b.x - a.x
  let dy := b.y - a.y
  let distSq := dx * dx + dy * dy
  let dist := Real.sqrt distSq + 1e-6
  let a1 := if dist < PHYS.constellationDistance then { a with inConstellation := true } else a
  let b1 := if dist < PHYS.constellationDistance then { b with inConstellation := true } else b
  let ab :=
    if dist < PHYS.maxLinkDistance * 1.25 then
      if dist > PHYS.minLinkDistance then
        let strength := PHYS.softAttract / distSq
        let nx := dx / dist
        let ny := dy / dist
        let fx := nx * strength
        let fy := ny * strength
        ({ a1 with vx := a1.vx.map (· + fx * dt * b.mass)
                   vy := a1.vy.map (· + fy * dt * b.mass) },
         { b1 with vx := b1.vx.map (· - fx * dt * a.mass)
                   vy := b1.vy.map (· - fy * dt * a.mass) })
      else if dist < PHYS.repulsionDistance then
        let strength := PHYS.repulsionStrength / (distSq + 1e-6)
        let nx := dx / dist
        let ny := dy / dist
        let fx := nx * strength
        let fy := ny * strength
        ({ a1 with vx := a1.vx.map (· - fx * dt * b.mass)
                   vy := a1.vy.map (· - fy * dt * b.mass) },
         { b1 with vx := b1.vx.map (· + fx * dt * a.mass)
                   vy := b1.vy.map (· + fy * dt * a.mass) })
      else (a1, b1)
    else (a1, b1)
  (ns.set i ab.1).set j ab.2

/-- The full pairwise force pass, script.js:135-177. -/
def forcePass (dt : ℝ) (ns : List Node) : List Node :=
  (pairIndices ns.length).foldl (fun acc p => pairUpdate dt p.1 p.2 acc) ns

/-- Trail append + capacity eviction, script.js:240-241: push the sample,
then shift the oldest entry out if the length exceeds `PHYS.trailKeep`. -/
def trailPush (trail : List TrailSample) (p : TrailSample) : List TrailSample :=
  if PHYS.trailKeep < (trail ++ [p]).length then (trail ++ [p]).tail else trail ++ [p]

/-- The per-node body of the orbital-motion loop, script.js:180-241. -/
def motionUpdate (seed w h dt now : ℝ) (r : StepRand) (n : Node) : Node :=
  let time := now * 0.001
  let orbitCenterX :=
    n.orbitCenterX + (noise2 seed (n.orbitCenterX * 0.01) (time * 0.1) - 0.5) * PHYS.centerDrift * dt
  let orbitCenterY :=
    n.orbitCenterY + (noise2 seed (n.orbitCenterY * 0.01) (time * 0.1) - 0.5) * PHYS.centerDrift * dt
  let secondaryCenterX :=
    n.secondaryCenterX + (noise2 seed (n.secondaryCenterX * 0.01) (time * 0.15) - 0.5) * PHYS.centerDrift * dt
  let secondaryCenterY :=
    n.secondaryCenterY + (noise2 seed (n.secondaryCenterY * 0.01) (time * 0.15) - 0.5) * PHYS.centerDrift * dt
  let orbitPhase := n.orbitPhase + n.orbitSpeed * n.orbitDirection * dt
  let secondaryPhase := n.secondaryPhase + n.secondarySpeed * n.secondaryDirection * dt
  let primaryX := orbitCenterX + Real.cos orbitPhase * n.orbitRadius
  let primaryY := orbitCenterY + Real.sin orbitPhase * n.orbitRadius
  let secondaryX := secondaryCenterX + Real.cos secondaryPhase * n.secondaryRadius
  let secondaryY := secondaryCenterY + Real.sin secondaryPhase * n.secondaryRadius
  let blendFactor : ℝ := 0.7
  let targetX := primaryX * blendFactor + secondaryX * (1 - blendFactor)
  let targetY := primaryY * blendFactor + secondaryY * (1 - blendFactor)
  let moveSpeed : ℝ := 2.0
  let x1 := n.x + (targetX - n.x) * moveSpeed * dt
  let y1 := n.y + (targetY - n.y) * moveSpeed * dt
  let noiseX := (noise2 seed (x1 * 0.01) (time * 0.2) - 0.5) * PHYS.noiseStrength
  let noiseY := (noise2 seed (y1 * 0.01) (time * 0.2) - 0.5) * PHYS.noiseStrength
  let x2 := x1 + noiseX * dt
  let y2 := y1 + noiseY * dt
  let angle := n.angle + n.angularVel * dt
  let angularVel := n.angularVel + (rand (-0.001) 0.001 r.rAngularVel - n.angularVel * 0.1) * dt
  -- soft wrap: two sequential `if`s per axis; the second reads the updated value
  let x3 := if x2 < -40 then w + 40 else x2
  let ocx3 := if x2 < -40 then (w + 40) + rand (-200) 200 r.rWrapX else orbitCenterX
  let x4 := if x3 > w + 40 then -40 else x3
  let ocx4 := if x3 > w + 40 then (-40) + rand (-200) 200 r.rWrapX else ocx3
  let y3 := if y2 < -40 then h + 40 else y2
  let ocy3 := if y2 < -40 then (h + 40) + rand (-200) 200 r.rWrapY else orbitCenterY
  let y4 := if y3 > h + 40 then -40 else y3
  let ocy4 := if y3 > h + 40 then (-40) + rand (-200) 200 r.rWrapY else ocy3
  let trail := trailPush n.trail (x4, y4, now)
  { n with
    x := x4
    y := y4
    orbitCenterX := ocx4
    orbitCenterY := ocy4
    secondaryCenterX := secondaryCenterX
    secondaryCenterY := secondaryCenterY
    orbitPhase := orbitPhase
    secondaryPhase := secondaryPhase
    angle := angle
    angularVel := angularVel
    trail := trail }

/-- The orbital-motion loop (script.js:180-242): `motionUpdate` applied to each
node in order, node `k` consuming the draw record `rnd (base + k)`. -/
def motionPass (seed w h dt now : ℝ) (rnd : ℕ → StepRand) : ℕ → List Node → List Node
  | _, [] => []
  | k, n :: rest =>
      motionUpdate seed w h dt now (rnd k) n :: motionPass seed w h dt now rnd (k + 1) rest

/-- `step(dt)`, script.js:125-245.  `now` is `performance.now()`; `rnd k` holds
the `Math.random()` draws consumed for node `k` during the motion loop. -/
def step (dt now : ℝ) (rnd : ℕ → StepRand) (s : SimState) : SimState :=
  if s.nodes.length = 0 then s
  else
    let ns0 := s.nodes.map fun n => { n with inConstellation := false }
    let ns1 := forcePass dt ns0
    let ns2 := motionPass s.noiseSeed s.width s.height dt now rnd 0 ns1
    { s with nodes := ns2, links := rebuildLinks ns2 }

/-- The whitespace test of JS `String.prototype.trim` (ASCII part). -/
def jsWhitespace (c : Char) : Bool :=
  c == ' ' || c == '\t' || c == '\n' || c == '\r' || c == '\x0b' || c == '\x0c'

/-- JS `String.prototype.trim`: strip leading and trailing whitespace. -/
def jsTrim (s : String) : String :=
  String.mk (((s.data.dropWhile jsWhitespace).reverse.dropWhile jsWhitespace).reverse)

/-- The form submit handler (script.js:381-389) composed with
`createNode` (script.js:100-103): trims the input, ignores empty results,
otherwise appends one node at a random central position. -/
def handleSubmit (value : String) (rx ry : ℝ) (cr : CreateRand) (s : SimState) : SimState :=
  let text := jsTrim value
  if text = "" then s
  else
    let x := rand (s.width * 0.3) (s.width * 0.7) rx
    let y := rand (s.height * 0.3) (s.height * 0.7) ry
    { s with nodes := s.nodes ++ [Node.create text x y cr] }

/-- Order-independent membership of the unordered pair `{i, j}` in a link list. -/
def containsPair (links : List Link) (i j : ℕ) : Prop :=
  ∃ l ∈ links, (l.i = i ∧ l.j = j) ∨ (l.i = j ∧ l.j = i)

/-- Forget a node's velocity fields (used to state velocity noninterference). -/
def stripV (n : Node) : Node := { n with vx := none, vy := none }

/-- Forget all velocity fields of a state. -/
def stripState (s : SimState) : SimState := { s with nodes := s.nodes.map stripV }

/-- Forget exactly the fields the force pass may write:
velocities and the constellation flag. -/
def stripVC (n : Node) : Node :=
  { n with vx := none, vy := none, inConstellation := false }

/-- Mass, hue and radius of a node. -/
def mhrView (n : Node) : ℝ × ℝ × ℝ := (n.mass, n.hue, n.radius)

/-- Position, velocity and the two orbital phases of a node. -/
def kinView (n : Node) : ℝ × ℝ × Option ℝ × Option ℝ × ℝ × ℝ :=
  (n.x, n.y, n.vx, n.vy, n.orbitPhase, n.secondaryPhase)

/-- Velocity of a node. -/
def velView (n : Node) : Option ℝ × Option ℝ := (n.vx, n.vy)

/-- Position and trail of a node. -/
def posTrailView (n : Node) : ℝ × ℝ × List TrailSample := (n.x, n.y, n.trail)

/-- Position of a node. -/
def posView (n : Node) : ℝ × ℝ := (n.x, n.y)

/-- Constellation flag of a node. -/
def flagView (n : Node) : Bool := n.inConstellation

/-- A fixed record of constructor draws (all zero) for concrete states. -/
def testCreateRand : CreateRand := ⟨0, 0, 0, 0, 0, 0, 0, 0, 0, 0, 0, 0, 0, 0, 0, 0, 0⟩

/-- A fixed record of per-tick draws (all zero) for concrete states. -/
def testStepRand : ℕ → StepRand := fun _ => ⟨0, 0, 0⟩

/-- A concrete node used in concrete-state theorems. -/
def baseNode : Node where
  text := "word"
  x := 100
  y := 100
  vx := none
  vy := none
  mass := 1
  radius := 11.5
  hue := 220
  trail := []
  angle := 0
  angularVel := 0
  turbulencePhase := 0
  inConstellation := false
  orbitCenterX := 0
  orbitCenterY := 0
  orbitRadius := 150
  orbitSpeed := 1
  orbitDirection := 1
  orbitPhase := 0
  secondaryCenterX := 0
  secondaryCenterY := 0
  secondaryRadius := 100
  secondarySpeed := 1
  secondaryDirection := 1
  secondaryPhase := 0

/-- A concrete one-node state. -/
def testState : SimState where
  width := 800
  height := 600
  nodes := [baseNode]
  links := []
  noiseSeed := 0

/-- A node placed beyond the left wrap margin. -/
def outNode : Node := { baseNode with x := -50 }

/-- A one-node state whose node is beyond the wrap margin. -/
def outState : SimState := { testState with nodes := [outNode] }

/-- A node 150px to the right of `baseNode`. -/
def farNode : Node := { baseNode with x := 250 }

/-- A two-node state with nodes exactly 150px apart. -/
def farState : SimState := { testState with nodes := [baseNode, farNode] }

/-- A node 100px to the right of `baseNode`. -/
def midNode : Node := { baseNode with x := 200 }

/-- A two-node state with nodes exactly 100px apart. -/
def nearState : SimState := { testState with nodes := [baseNode, midNode] }

/-- A freshly constructed node at `(100, 100)` (velocity left undefined). -/
def c8NodeA : Node := Node.create "alpha" 100 100 testCreateRand

/-- A freshly constructed node at `(110, 100)` (velocity left undefined). -/
def c8NodeB : Node := Node.create "beta" 110 100 testCreateRand

/-- A two-node state of fresh nodes 10px apart (inside repulsion range). -/
def c8State : SimState := { testState with nodes := [c8NodeA, c8NodeB] }

/-- A node carrying a finite (non-`none`) velocity. -/
def dragNode : Node := { baseNode with vx := some 1, vy := some 1 }

/-- A one-node state whose node has velocity `(1, 1)`. -/
def dragState : SimState := { testState with nodes := [dragNode] }

end

/-! ### Generic list helpers -/

lemma getD_map_eq {α β : Type _} (f : α → β) (l : List α) (i : ℕ) (d : α) :
    (l.map f).getD i (f d) = f (l.getD i d) := by
  induction l generalizing i with
  | nil => simp
  | cons a tl ih =>
      cases i with
      | zero => simp
      | succ m =>
          rw [List.map_cons, List.getD_cons_succ, List.getD_cons_succ]
          exact ih m

lemma set_getD_self {α : Type _} (l : List α) (i : ℕ) (d : α) :
    l.set i (l.getD i d) = l := by
  induction l generalizing i with
  | nil => simp
  | cons a tl ih =>
      cases i with
      | zero => simp
      | succ m =>
          rw [List.getD_cons_succ, List.set_cons_succ]
          rw [ih m]

/-! ### Trail buffer lemmas (script.js:240-241) -/

lemma trailPush_getLast? (tr : List TrailSample) (p : TrailSample) :
    (trailPush tr p).getLast? = some p := by
  unfold trailPush
  split
  · next h =>
      have htr : tr ≠ [] := by
        intro he
        subst he
        simp [PHYS.trailKeep] at h
      rw [List.tail_append_of_ne_nil htr, List.getLast?_concat]
  · exact List.getLast?_concat _

lemma trailPush_length_le (tr : List TrailSample) (p : TrailSample)
    (h : tr.length ≤ PHYS.trailKeep) :
    (trailPush tr p).length ≤ PHYS.trailKeep := by
  unfold trailPush
  split
  · next h40 => simp at h40 ⊢; omega
  · next h40 => simp at h40 ⊢; omega

lemma trailPush_foldl (ss : List TrailSample) :
    List.foldl trailPush [] ss = ss.drop (ss.length - PHYS.trailKeep) := by
  induction ss using List.reverseRecOn with
  | nil => simp
  | append_singleton ss p ih =>
      rw [List.foldl_append, List.foldl_cons, List.foldl_nil, ih]
      unfold trailPush
      have hK : PHYS.trailKeep = 40 := rfl
      by_cases hlen : ss.length < PHYS.trailKeep
      · have h0 : ss.length - PHYS.trailKeep = 0 := by omega
        rw [h0, List.drop_zero,
          if_neg (by simp only [List.length_append, List.length_cons, List.length_nil]; omega)]
        have h1 : (ss ++ [p]).length - PHYS.trailKeep = 0 := by
          simp only [List.length_append, List.length_cons, List.length_nil]
          omega
        rw [h1, List.drop_zero]
      · have hk : PHYS.trailKeep ≤ ss.length := le_of_not_lt hlen
        have hdlen : (ss.drop (ss.length - PHYS.trailKeep)).length = PHYS.trailKeep := by
          simp only [List.length_drop]
          omega
        have hdne : ss.drop (ss.length - PHYS.trailKeep) ≠ [] := by
          intro he
          rw [he] at hdlen
          simp [PHYS.trailKeep] at hdlen
        rw [if_pos (by
          simp only [List.length_append, List.length_cons, List.length_nil, hdlen]
          omega)]
        rw [List.tail_append_of_ne_nil hdne, List.tail_drop]
        have h2 : (ss ++ [p]).length - PHYS.trailKeep = ss.length - PHYS.trailKeep + 1 := by
          simp only [List.length_append, List.length_cons, List.length_nil]
          omega
        have h3 : ss.length - PHYS.trailKeep + 1 ≤ ss.length := by omega
        rw [h2, List.drop_append_of_le_length h3]

/-! ### Force pass invariants: only `vx`, `vy`, `inConstellation` are written -/

lemma stripVC_default : stripVC defaultNode = defaultNode := rfl

lemma getD_map_stripVC (l : List Node) (i : ℕ) :
    (l.map stripVC).getD i default = stripVC (l.getD i default) := by
  have h := getD_map_eq stripVC l i default
  have hd : stripVC (default : Node) = default := rfl
  rw [hd] at h
  exact h

lemma pairUpdate_map_stripVC (dt : ℝ) (i j : ℕ) (ns : List Node) :
    (pairUpdate dt i j ns).map stripVC = ns.map stripVC := by
  have key : ∀ (x y : Node),
      stripVC x = stripVC (ns.getD i default) →
      stripVC y = stripVC (ns.getD j default) →
      ((ns.set i x).set j y).map stripVC = ns.map stripVC := by
    intro x y hx hy
    rw [List.map_set, List.map_set, hx, hy, ← getD_map_stripVC ns i,
      ← getD_map_stripVC ns j, set_getD_self, set_getD_self]
  simp only [pairUpdate]
  apply key
  · split_ifs <;> rfl
  · split_ifs <;> rfl

lemma foldl_pairUpdate_map_stripVC (dt : ℝ) (ps : List (ℕ × ℕ)) (ns : List Node) :
    (ps.foldl (fun acc p => pairUpdate dt p.1 p.2 acc) ns).map stripVC
      = ns.map stripVC := by
  induction ps generalizing ns with
  | nil => rfl
  | cons p ps ih => rw [List.foldl_cons, ih, pairUpdate_map_stripVC]

lemma forcePass_map_stripVC (dt : ℝ) (ns : List Node) :
    (forcePass dt ns).map stripVC = ns.map stripVC :=
  foldl_pairUpdate_map_stripVC dt (pairIndices ns.length) ns

lemma map_view_of_stripVC {β : Type _} (g : Node → β) (hg : ∀ n, g (stripVC n) = g n)
    {l l' : List Node} (h : l.map stripVC = l'.map stripVC) :
    l.map g = l'.map g := by
  have hfg : (fun n => g (stripVC n)) = g := funext hg
  calc l.map g = l.map (fun n => g (stripVC n)) := by rw [hfg]
    _ = (l.map stripVC).map g := (List.map_map g stripVC l).symm
    _ = (l'.map stripVC).map g := by rw [h]
    _ = l'.map (fun n => g (stripVC n)) := List.map_map g stripVC l'
    _ = l'.map g := by rw [hfg]

lemma map_view_reset {β : Type _} (g : Node → β)
    (hg : ∀ n, g { n with inConstellation := false } = g n) (ns : List Node) :
    (ns.map fun n => { n with inConstellation := false }).map g = ns.map g := by
  rw [List.map_map]
  exact congrArg (fun f => ns.map f) (funext hg)

lemma motionPass_map_view {β : Type _} (g : Node → β)
    (hmotion : ∀ seed w h dt now r n, g (motionUpdate seed w h dt now r n) = g n)
    (seed w h dt now : ℝ) (rnd : ℕ → StepRand) (k : ℕ) (ns : List Node) :
    (motionPass seed w h dt now rnd k ns).map g = ns.map g := by
  induction ns generalizing k with
  | nil => rfl
  | cons n rest ih =>
      simp only [motionPass, List.map_cons]
      rw [hmotion, ih]

lemma step_map_view {β : Type _} (g : Node → β)
    (hreset : ∀ n, g { n with inConstellation := false } = g n)
    (hstrip : ∀ n, g (stripVC n) = g n)
    (hmotion : ∀ seed w h dt now r n, g (motionUpdate seed w h dt now r n) = g n)
    (dt now : ℝ) (rnd : ℕ → StepRand) (s : SimState) :
    (step dt now rnd s).nodes.map g = s.nodes.map g := by
  unfold step
  split
  · rfl
  · show (motionPass s.noiseSeed s.width s.height dt now rnd 0
        (forcePass dt (s.nodes.map fun n => { n with inConstellation := false }))).map g
      = s.nodes.map g
    rw [motionPass_map_view g hmotion]
    rw [map_view_of_stripVC g hstrip
      (forcePass_map_stripVC dt (s.nodes.map fun n => { n with inConstellation := false }))]
    exact map_view_reset g hreset s.nodes

lemma forcePass_length (dt : ℝ) (ns : List Node) :
    (forcePass dt ns).length = ns.length := by
  have h := congrArg List.length (forcePass_map_stripVC dt ns)
  simpa using h

lemma motionPass_length (seed w h dt now : ℝ) (rnd : ℕ → StepRand) (k : ℕ) (ns : List Node) :
    (motionPass seed w h dt now rnd k ns).length = ns.length := by
  induction ns generalizing k with
  | nil => rfl
  | cons n rest ih => simp only [motionPass, List.length_cons, ih]

lemma motionPass_getD (seed w h dt now : ℝ) (rnd : ℕ → StepRand) (k0 k : ℕ)
    (ns : List Node) (hk : k < ns.length) :
    (motionPass seed w h dt now rnd k0 ns).getD k default
      = motionUpdate seed w h dt now (rnd (k0 + k)) (ns.getD k default) := by
  induction ns generalizing k0 k with
  | nil => simp at hk
  | cons n rest ih =>
      cases k with
      | zero => rfl
      | succ m =>
          have hm : m < rest.length := by simpa using hk
          simp only [motionPass, List.getD_cons_succ]
          rw [ih (k0 + 1) m hm]
          have harith : k0 + 1 + m = k0 + (m + 1) := by omega
          rw [harith]

/-- C10: `noise2` returns a value in `[0, 1)` and is a deterministic pure
function of its arguments and the seed: equal arguments and equal seed give
equal output. -/
theorem c10_noise_contract (seed x y seed' x' y' : ℝ)
    (hs : seed = seed') (hx : x = x') (hy : y = y') :
    0 ≤ noise2 seed x y ∧ noise2 seed x y < 1 ∧
      noise2 seed x y = noise2 seed' x' y' := by
  subst hs
  subst hx
  subst hy
  have hfract : noise2 seed x y
      = Int.fract (Real.sin (x * 12.9898 + y * 78.233 + seed) * 43758.5453) := rfl
  refine ⟨?_, ?_, rfl⟩
  · rw [hfract]
    exact Int.fract_nonneg _
  · rw [hfract]
    exact Int.fract_lt_one _

/-- Witness for C10 at the concrete input `(0, 0, 0)`. -/
theorem c10_noise_contract_witness :
    0 ≤ noise2 0 0 0 ∧ noise2 0 0 0 < 1 ∧ noise2 0 0 0 = noise2 0 0 0 :=
  c10_noise_contract 0 0 0 0 0 0 rfl rfl rfl

/-- C9: submitting empty or whitespace-only text is a no-op on the whole
state (in particular the node sequence is unchanged and no node is created);
non-empty trimmed text appends exactly one node. -/
theorem c9_submit_trim (value : String) (rx ry : ℝ) (cr : CreateRand) (s : SimState) :
    (jsTrim value = "" → handleSubmit value rx ry cr s = s) ∧
    (jsTrim value ≠ "" →
      (handleSubmit value rx ry cr s).nodes.length = s.nodes.length + 1) ∧
    ((∀ c ∈ value.data, jsWhitespace c) → jsTrim value = "") := by
  refine ⟨fun h => ?_, fun h => ?_, fun h => ?_⟩
  · unfold handleSubmit
    rw [if_pos h]
  · unfold handleSubmit
    rw [if_neg h]
    simp
  · unfold jsTrim
    have h1 : value.data.dropWhile jsWhitespace = [] :=
      List.dropWhile_eq_nil_iff.mpr h
    rw [h1]
    rfl

/-- Witness for C9: `"  "` (whitespace only) is a no-op, `"hi"` appends one node. -/
theorem c9_submit_trim_witness :
    handleSubmit "  " 0 0 testCreateRand testState = testState ∧
    (handleSubmit "hi" 0 0 testCreateRand testState).nodes.length
      = testState.nodes.length + 1 :=
  ⟨(c9_submit_trim "  " 0 0 testCreateRand testState).1 (by decide),
   (c9_submit_trim "hi" 0 0 testCreateRand testState).2.1 (by decide)⟩

/-! ### C7: mass, hue, radius -/

/-- C7: at creation `mass ∈ [0.6, 1.6]`, `hue ∈ [215, 235]` and
`radius = 8 + mass * 3.5`; `step` (which includes the link rebuild) never
changes any node's mass, hue or radius, so the radius relation persists. -/
theorem c7_mass_hue_radius (t : String) (x y : ℝ) (r : CreateRand)
    (h1 : 0 ≤ r.rMass) (h2 : r.rMass < 1) (h3 : 0 ≤ r.rHue) (h4 : r.rHue < 1) :
    (0.6 ≤ (Node.create t x y r).mass ∧ (Node.create t x y r).mass ≤ 1.6) ∧
    (215 ≤ (Node.create t x y r).hue ∧ (Node.create t x y r).hue ≤ 235) ∧
    (Node.create t x y r).radius = 8 + (Node.create t x y r).mass * 3.5 ∧
    (∀ (dt now : ℝ) (rnd : ℕ → StepRand) (s : SimState),
      (step dt now rnd s).nodes.map mhrView = s.nodes.map mhrView) := by
  have hm : (Node.create t x y r).mass = 0.6 + r.rMass * (1.6 - 0.6) := rfl
  have hh : (Node.create t x y r).hue = 215 + r.rHue * (235 - 215) := rfl
  refine ⟨⟨?_, ?_⟩, ⟨?_, ?_⟩, rfl, ?_⟩
  · rw [hm]; nlinarith
  · rw [hm]; nlinarith
  · rw [hh]; nlinarith
  · rw [hh]; nlinarith
  · intro dt now rnd s
    exact step_map_view mhrView (fun n => rfl) (fun n => rfl)
      (fun seed w h dt now r n => rfl) dt now rnd s

/-- Witness for C7 at a concrete creation (all constructor draws zero). -/
theorem c7_mass_hue_radius_witness :
    (0.6 ≤ (Node.create "word" 100 100 testCreateRand).mass ∧
      (Node.create "word" 100 100 testCreateRand).mass ≤ 1.6) ∧
    (215 ≤ (Node.create "word" 100 100 testCreateRand).hue ∧
      (Node.create "word" 100 100 testCreateRand).hue ≤ 235) ∧
    (Node.create "word" 100 100 testCreateRand).radius
      = 8 + (Node.create "word" 100 100 testCreateRand).mass * 3.5 ∧
    (∀ (dt now : ℝ) (rnd : ℕ → StepRand) (s : SimState),
      (step dt now rnd s).nodes.map mhrView = s.nodes.map mhrView) :=
  c7_mass_hue_radius "word" 100 100 testCreateRand
    (le_refl 0) (show (0 : ℝ) < 1 by norm_num) (le_refl 0) (show (0 : ℝ) < 1 by norm_num)

/-! ### C3: the drag constant is defined but never applied -/

lemma step_single_node_vel (dt now : ℝ) (rnd : ℕ → StepRand) (s : SimState)
    (hs : s.nodes.length = 1) :
    (step dt now rnd s).nodes.map velView = s.nodes.map velView := by
  obtain ⟨n, hn⟩ := List.length_eq_one.mp hs
  unfold step
  rw [if_neg (by omega)]
  show (motionPass s.noiseSeed s.width s.height dt now rnd 0
      (forcePass dt (s.nodes.map fun m => { m with inConstellation := false }))).map velView
    = s.nodes.map velView
  rw [hn]
  rfl

/-- C3 amended: the drag constant 0.98 exists in the configuration
(`PHYS.globalDrag`) but is never applied to any velocity: velocities change
only through pairwise forces, so a tick of a single-node state (no pairs,
hence no forces) leaves `vx`, `vy` exactly unchanged — they are not
multiplied by 0.98. -/
theorem c3_drag_defined_but_unapplied (dt now : ℝ) (rnd : ℕ → StepRand)
    (s : SimState) (hs : s.nodes.length = 1) :
    PHYS.globalDrag = 0.98 ∧
    (step dt now rnd s).nodes.map velView = s.nodes.map velView :=
  ⟨rfl, step_single_node_vel dt now rnd s hs⟩

/-- Witness for C3 (amended) at a concrete one-node state. -/
theorem c3_drag_defined_but_unapplied_witness :
    PHYS.globalDrag = 0.98 ∧
    (step 0.016 0 testStepRand testState).nodes.map velView
      = testState.nodes.map velView :=
  c3_drag_defined_but_unapplied 0.016 0 testStepRand testState rfl

/-- Counterexample to C3 as stated: for the one-node state whose node has
velocity `(1, 1)`, a tick leaves `vx = 1`, and `1 ≠ 0.98 * 1`, so the tick
did not multiply the velocity by the drag constant. -/
theorem c3_no_drag_counterexample :
    ((step 0.016 0 testStepRand dragState).nodes.getD 0 default).vx = some 1 ∧
    some (1 : ℝ) ≠ some (PHYS.globalDrag * 1) := by
  constructor
  · have h := step_single_node_vel 0.016 0 testStepRand dragState rfl
    have h0 := congrArg (fun l => l.getD 0 (velView default)) h
    simp only at h0
    rw [getD_map_eq velView _ 0 default, getD_map_eq velView _ 0 default] at h0
    have := congrArg Prod.fst h0
    simpa [velView] using this
  · intro h
    rw [Option.some_inj] at h
    norm_num [PHYS.globalDrag] at h

/-! ### C6: trail bound, FIFO eviction, most-recent sample -/

lemma trail_stripVC (n : Node) : (stripVC n).trail = n.trail := rfl

lemma preforce_trail_getD (dt : ℝ) (ns : List Node) (k : ℕ) :
    ((forcePass dt (ns.map fun n => { n with inConstellation := false })).getD k default).trail
      = (ns.getD k default).trail := by
  have hmap : (forcePass dt (ns.map fun n => { n with inConstellation := false })).map
      (fun n => n.trail) = ns.map (fun n => n.trail) := by
    rw [map_view_of_stripVC (fun n => n.trail) (fun n => rfl)
      (forcePass_map_stripVC dt (ns.map fun n => { n with inConstellation := false }))]
    exact map_view_reset (fun n => n.trail) (fun n => rfl) ns
  have h1 := getD_map_eq (fun n => n.trail) (forcePass dt
    (ns.map fun n => { n with inConstellation := false })) k default
  have h2 := getD_map_eq (fun n => n.trail) ns k default
  rw [hmap, h2] at h1
  exact h1.symm

/-- C6: the trail never exceeds 40 samples (`trailPush` preserves the bound,
and from an empty trail, pushing any sequence of samples keeps exactly the
last 40, evicting the oldest first — FIFO); immediately after a tick the most
recent trail sample of every node equals that node's current position (with
the tick's timestamp). -/
theorem c6_trail_bounded_fifo (tr : List TrailSample) (p : TrailSample)
    (ss : List TrailSample) (htr : tr.length ≤ PHYS.trailKeep)
    (dt now : ℝ) (rnd : ℕ → StepRand) (s : SimState) (k : ℕ)
    (hk : k < s.nodes.length)
    (hklen : (s.nodes.getD k default).trail.length ≤ PHYS.trailKeep) :
    (trailPush tr p).length ≤ PHYS.trailKeep ∧
    List.foldl trailPush [] ss = ss.drop (ss.length - PHYS.trailKeep) ∧
    ((step dt now rnd s).nodes.getD k default).trail.getLast?
      = some (((step dt now rnd s).nodes.getD k default).x,
          ((step dt now rnd s).nodes.getD k default).y, now) ∧
    ((step dt now rnd s).nodes.getD k default).trail.length ≤ PHYS.trailKeep := by
  refine ⟨trailPush_length_le tr p htr, trailPush_foldl ss, ?_, ?_⟩
  all_goals {
    unfold step
    rw [if_neg (by omega)]
    simp only
    rw [motionPass_getD _ _ _ _ _ _ 0 k _
      (by rw [forcePass_length]; simpa using hk)]
    first
      | exact trailPush_getLast? _ _
      | { show (trailPush ((forcePass dt (s.nodes.map fun n =>
            { n with inConstellation := false })).getD k default).trail _).length
            ≤ PHYS.trailKeep
          rw [preforce_trail_getD]
          exact trailPush_length_le _ _ hklen } }

/-- Witness for C6 at concrete inputs. -/
theorem c6_trail_bounded_fifo_witness :
    (trailPush [] (0, 0, 0)).length ≤ PHYS.trailKeep ∧
    List.foldl trailPush [] [] = List.drop (List.length ([] : List TrailSample) - PHYS.trailKeep) [] ∧
    ((step 0.016 0 testStepRand testState).nodes.getD 0 default).trail.getLast?
      = some (((step 0.016 0 testStepRand testState).nodes.getD 0 default).x,
          ((step 0.016 0 testStepRand testState).nodes.getD 0 default).y, 0) ∧
    ((step 0.016 0 testStepRand testState).nodes.getD 0 default).trail.length
      ≤ PHYS.trailKeep :=
  c6_trail_bounded_fifo [] (0, 0, 0) [] (by decide) 0.016 0 testStepRand testState 0
    (by decide) (by decide)

/-! ### C1: the rebuilt link set -/

lemma mem_pairIndices (n : ℕ) (p : ℕ × ℕ) :
    p ∈ pairIndices n ↔ p.1 < p.2 ∧ p.2 < n := by
  unfold pairIndices
  simp only [List.mem_flatMap, List.mem_map, List.mem_range, List.mem_range'_1]
  constructor
  · rintro ⟨i, hi, j, ⟨hj1, hj2⟩, rfl⟩
    exact ⟨by omega, by omega⟩
  · rintro ⟨h1, h2⟩
    exact ⟨p.1, by omega, p.2, ⟨by omega, by omega⟩, rfl⟩

lemma nodup_flatMap_pairs (g : ℕ → List ℕ) (l : List ℕ) (hl : l.Nodup)
    (hg : ∀ i, (g i).Nodup) :
    (l.flatMap fun i => (g i).map fun j => (i, j)).Nodup := by
  induction l with
  | nil => simp
  | cons a l ih =>
      rw [List.flatMap_cons]
      have hal : a ∉ l := (List.nodup_cons.mp hl).1
      have hl' : l.Nodup := (List.nodup_cons.mp hl).2
      refine List.Nodup.append ((hg a).map fun j j' e => ?_) (ih hl') ?_
      · simpa using congrArg Prod.snd e
      · intro x hx hx'
        obtain ⟨j, hj, rfl⟩ := List.mem_map.mp hx
        obtain ⟨i, hi, hmem⟩ := List.mem_flatMap.mp hx'
        obtain ⟨j', hj', he⟩ := List.mem_map.mp hmem
        have hia : i = a := by simpa using congrArg Prod.fst he
        exact hal (hia ▸ hi)

lemma nodup_pairIndices (n : ℕ) : (pairIndices n).Nodup :=
  nodup_flatMap_pairs (fun i => List.range' (i + 1) (n - (i + 1))) (List.range n)
    (List.nodup_range n) (fun i => List.nodup_range' _ _)

lemma hypot_neg (u v : ℝ) : hypot (-u) (-v) = hypot u v := by
  unfold hypot
  ring_nf

lemma mem_rebuildLinks (nodes : List Node) (l : Link) :
    l ∈ rebuildLinks nodes ↔
      l.i < l.j ∧ l.j < nodes.length ∧
      l.d = hypot ((nodes.getD l.j default).x - (nodes.getD l.i default).x)
          ((nodes.getD l.j default).y - (nodes.getD l.i default).y) ∧
      l.d < PHYS.constellationDistance := by
  unfold rebuildLinks
  rw [List.mem_filterMap]
  constructor
  · rintro ⟨p, hp, hf⟩
    rw [mem_pairIndices] at hp
    dsimp only at hf
    split at hf
    · rw [Option.some_inj] at hf
      subst hf
      exact ⟨hp.1, hp.2, rfl, by assumption⟩
    · exact absurd hf (by simp)
  · rintro ⟨h1, h2, h3, h4⟩
    refine ⟨(l.i, l.j), (mem_pairIndices _ _).mpr ⟨h1, h2⟩, ?_⟩
    dsimp only
    rw [← h3, if_pos h4]

lemma nodup_map_filterMap {α β : Type _} (f : α → Option β) (g : β → α)
    (hfg : ∀ a b, f a = some b → g b = a) (l : List α) (hl : l.Nodup) :
    ((l.filterMap f).map g).Nodup := by
  induction l with
  | nil => simp
  | cons a l ih =>
      cases hfa : f a with
      | none =>
          simp only [List.filterMap_cons, hfa]
          exact ih (List.nodup_cons.mp hl).2
      | some b =>
          simp only [List.filterMap_cons, hfa, List.map_cons]
          rw [List.nodup_cons]
          refine ⟨fun hmem => ?_, ih (List.nodup_cons.mp hl).2⟩
          obtain ⟨b', hb', he⟩ := List.mem_map.mp hmem
          obtain ⟨a', ha', hfa'⟩ := List.mem_filterMap.mp hb'
          have h1 : g b' = a' := hfg a' b' hfa'
          have h2 : g b = a := hfg a b hfa
          have haa : a' = a := by rw [← h1, he, h2]
          exact (List.nodup_cons.mp hl).1 (haa ▸ ha')

/-- C1: after a rebuild, the link set has no self-pairs and no duplicate
pairs, unordered-pair membership is order-independent, and for distinct
in-range indices `i`, `j` the pair is present iff the Euclidean distance of
nodes `i` and `j` is strictly below `PHYS.constellationDistance` (120). -/
theorem c1_rebuild_links (nodes : List Node) (i j : ℕ)
    (hi : i < nodes.length) (hj : j < nodes.length) (hij : i ≠ j) :
    (∀ l ∈ rebuildLinks nodes, l.i ≠ l.j) ∧
    ((rebuildLinks nodes).map (fun l => (l.i, l.j))).Nodup ∧
    (containsPair (rebuildLinks nodes) i j ↔ containsPair (rebuildLinks nodes) j i) ∧
    (containsPair (rebuildLinks nodes) i j ↔
      hypot ((nodes.getD j default).x - (nodes.getD i default).x)
          ((nodes.getD j default).y - (nodes.getD i default).y)
        < PHYS.constellationDistance) := by
  refine ⟨?_, ?_, ?_, ?_⟩
  · intro l hl
    have h := (mem_rebuildLinks nodes l).mp hl
    omega
  · unfold rebuildLinks
    refine nodup_map_filterMap _ (fun l : Link => (l.i, l.j)) ?_ _
      (nodup_pairIndices nodes.length)
    intro p l hf
    dsimp only at hf
    split at hf
    · rw [Option.some_inj] at hf
      subst hf
      rfl
    · exact absurd hf (by simp)
  · constructor
    · rintro ⟨l, hl, h | h⟩
      · exact ⟨l, hl, Or.inr h⟩
      · exact ⟨l, hl, Or.inl h⟩
    · rintro ⟨l, hl, h | h⟩
      · exact ⟨l, hl, Or.inr h⟩
      · exact ⟨l, hl, Or.inl h⟩
  · constructor
    · rintro ⟨l, hl, h | h⟩
      · obtain ⟨hlt, hlen, hd, hlt120⟩ := (mem_rebuildLinks nodes l).mp hl
        obtain ⟨rfl, rfl⟩ := h
        rw [← hd]
        exact hlt120
      · obtain ⟨hlt, hlen, hd, hlt120⟩ := (mem_rebuildLinks nodes l).mp hl
        obtain ⟨rfl, rfl⟩ := h
        have hx : (nodes.getD l.i default).x - (nodes.getD l.j default).x
            = -((nodes.getD l.j default).x - (nodes.getD l.i default).x) := by ring
        have hy : (nodes.getD l.i default).y - (nodes.getD l.j default).y
            = -((nodes.getD l.j default).y - (nodes.getD l.i default).y) := by ring
        rw [hx, hy, hypot_neg, ← hd]
        exact hlt120
    · intro hd
      rcases lt_trichotomy i j with h | h | h
      · refine ⟨⟨i, j, hypot ((nodes.getD j default).x - (nodes.getD i default).x)
            ((nodes.getD j default).y - (nodes.getD i default).y)⟩,
          (mem_rebuildLinks nodes _).mpr ⟨h, hj, rfl, hd⟩, Or.inl ⟨rfl, rfl⟩⟩
      · exact absurd h hij
      · have hx : (nodes.getD i default).x - (nodes.getD j default).x
            = -((nodes.getD j default).x - (nodes.getD i default).x) := by ring
        have hy : (nodes.getD i default).y - (nodes.getD j default).y
            = -((nodes.getD j default).y - (nodes.getD i default).y) := by ring
        have hd' : hypot ((nodes.getD i default).x - (nodes.getD j default).x)
            ((nodes.getD i default).y - (nodes.getD j default).y)
            < PHYS.constellationDistance := by
          rw [hx, hy, hypot_neg]
          exact hd
        exact ⟨⟨j, i, hypot ((nodes.getD i default).x - (nodes.getD j default).x)
            ((nodes.getD i default).y - (nodes.getD j default).y)⟩,
          (mem_rebuildLinks nodes _).mpr ⟨h, hi, rfl, hd'⟩, Or.inr ⟨rfl, rfl⟩⟩

/-- Witness for C1 on a concrete two-node list at indices `0`, `1`. -/
theorem c1_rebuild_links_witness :
    (∀ l ∈ rebuildLinks [baseNode, { baseNode with x := 110 }], l.i ≠ l.j) ∧
    ((rebuildLinks [baseNode, { baseNode with x := 110 }]).map
      (fun l => (l.i, l.j))).Nodup ∧
    (containsPair (rebuildLinks [baseNode, { baseNode with x := 110 }]) 0 1 ↔
      containsPair (rebuildLinks [baseNode, { baseNode with x := 110 }]) 1 0) ∧
    (containsPair (rebuildLinks [baseNode, { baseNode with x := 110 }]) 0 1 ↔
      hypot (([baseNode, { baseNode with x := 110 }].getD 1 default).x
          - ([baseNode, { baseNode with x := 110 }].getD 0 default).x)
          (([baseNode, { baseNode with x := 110 }].getD 1 default).y
          - ([baseNode, { baseNode with x := 110 }].getD 0 default).y)
        < PHYS.constellationDistance) :=
  c1_rebuild_links [baseNode, { baseNode with x := 110 }] 0 1
    (by decide) (by decide) (by decide)

/-! ### C2: velocities never feed back into positions, trails or links -/

lemma stripV_default : stripV defaultNode = defaultNode := rfl

lemma getD_map_stripV (l : List Node) (i : ℕ) :
    (l.map stripV).getD i default = stripV (l.getD i default) := by
  have h := getD_map_eq stripV l i default
  have hd : stripV (default : Node) = default := rfl
  rw [hd] at h
  exact h

lemma map_view_of_stripV {β : Type _} (g : Node → β) (hg : ∀ n, g (stripV n) = g n)
    {l l' : List Node} (h : l.map stripV = l'.map stripV) :
    l.map g = l'.map g := by
  have hfg : (fun n => g (stripV n)) = g := funext hg
  calc l.map g = l.map (fun n => g (stripV n)) := by rw [hfg]
    _ = (l.map stripV).map g := (List.map_map g stripV l).symm
    _ = (l'.map stripV).map g := by rw [h]
    _ = l'.map (fun n => g (stripV n)) := List.map_map g stripV l'
    _ = l'.map g := by rw [hfg]

set_option maxHeartbeats 1000000 in
lemma pairUpdate_stripV_comm (dt : ℝ) (i j : ℕ) (ns : List Node) :
    (pairUpdate dt i j ns).map stripV = pairUpdate dt i j (ns.map stripV) := by
  simp only [pairUpdate]
  rw [getD_map_stripV ns i, getD_map_stripV ns j]
  rw [List.map_set, List.map_set]
  dsimp only [stripV]
  congr 1
  · congr 1
    split_ifs <;> rfl
  · split_ifs <;> rfl

lemma foldl_pairUpdate_stripV_comm (dt : ℝ) (ps : List (ℕ × ℕ)) (ns : List Node) :
    (ps.foldl (fun acc p => pairUpdate dt p.1 p.2 acc) ns).map stripV
      = ps.foldl (fun acc p => pairUpdate dt p.1 p.2 acc) (ns.map stripV) := by
  induction ps generalizing ns with
  | nil => rfl
  | cons p ps ih => rw [List.foldl_cons, List.foldl_cons, ih, pairUpdate_stripV_comm]

lemma forcePass_stripV_comm (dt : ℝ) (ns : List Node) :
    (forcePass dt ns).map stripV = forcePass dt (ns.map stripV) := by
  unfold forcePass
  rw [List.length_map]
  exact foldl_pairUpdate_stripV_comm dt (pairIndices ns.length) ns

lemma motionUpdate_stripV_comm (seed w h dt now : ℝ) (r : StepRand) (n : Node) :
    stripV (motionUpdate seed w h dt now r n) = motionUpdate seed w h dt now r (stripV n) := rfl

lemma motionPass_stripV_comm (seed w h dt now : ℝ) (rnd : ℕ → StepRand) (k : ℕ)
    (ns : List Node) :
    (motionPass seed w h dt now rnd k ns).map stripV
      = motionPass seed w h dt now rnd k (ns.map stripV) := by
  induction ns generalizing k with
  | nil => rfl
  | cons n rest ih =>
      simp only [motionPass, List.map_cons]
      rw [ih, motionUpdate_stripV_comm]

lemma reset_stripV_comm (ns : List Node) :
    (ns.map fun n => { n with inConstellation := false }).map stripV
      = (ns.map stripV).map fun n => { n with inConstellation := false } := by
  rw [List.map_map, List.map_map]
  exact congrArg (fun f => ns.map f) (funext fun n => rfl)

lemma rebuildLinks_map_stripV (ns : List Node) :
    rebuildLinks (ns.map stripV) = rebuildLinks ns := by
  unfold rebuildLinks
  rw [List.length_map]
  congr 1
  funext p
  rw [getD_map_stripV ns p.1, getD_map_stripV ns p.2]
  rfl

lemma step_stripState_comm (dt now : ℝ) (rnd : ℕ → StepRand) (s : SimState) :
    stripState (step dt now rnd s) = step dt now rnd (stripState s) := by
  by_cases hc : s.nodes.length = 0
  · unfold step
    rw [if_pos hc, if_pos (show (stripState s).nodes.length = 0 by
      show (s.nodes.map stripV).length = 0
      rw [List.length_map]
      exact hc)]
  · have hnodes : (motionPass s.noiseSeed s.width s.height dt now rnd 0
        (forcePass dt (s.nodes.map fun n => { n with inConstellation := false }))).map stripV
        = motionPass s.noiseSeed s.width s.height dt now rnd 0
          (forcePass dt ((s.nodes.map stripV).map fun n =>
            { n with inConstellation := false })) := by
      rw [motionPass_stripV_comm, forcePass_stripV_comm, reset_stripV_comm]
    unfold step
    rw [if_neg hc, if_neg (show ¬(stripState s).nodes.length = 0 by
      show ¬(s.nodes.map stripV).length = 0
      rw [List.length_map]
      exact hc)]
    show stripState { s with
        nodes := motionPass s.noiseSeed s.width s.height dt now rnd 0
          (forcePass dt (s.nodes.map fun n => { n with inConstellation := false }))
        links := rebuildLinks (motionPass s.noiseSeed s.width s.height dt now rnd 0
          (forcePass dt (s.nodes.map fun n => { n with inConstellation := false }))) }
      = { stripState s with
          nodes := motionPass s.noiseSeed s.width s.height dt now rnd 0
            (forcePass dt ((s.nodes.map stripV).map fun n =>
              { n with inConstellation := false }))
          links := rebuildLinks (motionPass s.noiseSeed s.width s.height dt now rnd 0
            (forcePass dt ((s.nodes.map stripV).map fun n =>
              { n with inConstellation := false }))) }
    unfold stripState
    rw [← hnodes, rebuildLinks_map_stripV]

/-- C2: positions are independent of velocities.  The force pass writes
`vx`/`vy`, but no position, trail, flag or link computation ever reads them:
two states identical except in their nodes' `vx`/`vy` fields (same width,
height, seed, links and all other node fields) produce, under the same tick
with the same randomness, identical velocity-stripped states — in particular
identical positions, trails and link sets. -/
theorem c2_velocity_noninterference (dt now : ℝ) (rnd : ℕ → StepRand)
    (s1 s2 : SimState) (h : stripState s1 = stripState s2) :
    stripState (step dt now rnd s1) = stripState (step dt now rnd s2) ∧
    (step dt now rnd s1).nodes.map posTrailView
      = (step dt now rnd s2).nodes.map posTrailView ∧
    (step dt now rnd s1).links = (step dt now rnd s2).links := by
  have hmain : stripState (step dt now rnd s1) = stripState (step dt now rnd s2) := by
    rw [step_stripState_comm, step_stripState_comm, h]
  refine ⟨hmain, ?_, ?_⟩
  · have hnodes : (step dt now rnd s1).nodes.map stripV
        = (step dt now rnd s2).nodes.map stripV := congrArg SimState.nodes hmain
    exact map_view_of_stripV posTrailView (fun n => rfl) hnodes
  · have hl := congrArg SimState.links hmain
    exact hl

/-- Witness for C2: two concrete states differing only in one node's
velocity (`none` versus `some 1`). -/
theorem c2_velocity_noninterference_witness :
    stripState (step 0.016 0 testStepRand dragState)
      = stripState (step 0.016 0 testStepRand testState) ∧
    (step 0.016 0 testStepRand dragState).nodes.map posTrailView
      = (step 0.016 0 testStepRand testState).nodes.map posTrailView ∧
    (step 0.016 0 testStepRand dragState).links
      = (step 0.016 0 testStepRand testState).links :=
  c2_velocity_noninterference 0.016 0 testStepRand dragState testState rfl

/-! ### C5: a tick with `dt = 0` -/

lemma motionUpdate_zero_dt (seed w h now : ℝ) (r : StepRand) (n : Node)
    (hx1 : -40 ≤ n.x) (hx2 : n.x ≤ w + 40) (hy1 : -40 ≤ n.y) (hy2 : n.y ≤ h + 40) :
    motionUpdate seed w h 0 now r n
      = { n with trail := trailPush n.trail (n.x, n.y, now) } := by
  have hnx : ¬(n.x < -40) := not_lt.mpr hx1
  have hgx : ¬(n.x > w + 40) := not_lt.mpr hx2
  have hny : ¬(n.y < -40) := not_lt.mpr hy1
  have hgy : ¬(n.y > h + 40) := not_lt.mpr hy2
  simp only [motionUpdate, mul_zero, add_zero, if_neg hnx, if_neg hgx, if_neg hny, if_neg hgy]

lemma motionPass_zero_dt (seed w h now : ℝ) (rnd : ℕ → StepRand) (k : ℕ) (ns : List Node)
    (hb : ∀ n ∈ ns, -40 ≤ n.x ∧ n.x ≤ w + 40 ∧ -40 ≤ n.y ∧ n.y ≤ h + 40) :
    motionPass seed w h 0 now rnd k ns
      = ns.map fun n => { n with trail := trailPush n.trail (n.x, n.y, now) } := by
  induction ns generalizing k with
  | nil => rfl
  | cons n rest ih =>
      obtain ⟨h1, h2, h3, h4⟩ := hb n (List.mem_cons_self _ _)
      simp only [motionPass, List.map_cons]
      rw [motionUpdate_zero_dt seed w h now (rnd k) n h1 h2 h3 h4,
        ih (k + 1) (fun m hm => hb m (List.mem_cons_of_mem _ hm))]

lemma pairUpdate_zero_map_kin (i j : ℕ) (ns : List Node) :
    (pairUpdate 0 i j ns).map kinView = ns.map kinView := by
  have key : ∀ (x y : Node),
      kinView x = kinView (ns.getD i default) →
      kinView y = kinView (ns.getD j default) →
      ((ns.set i x).set j y).map kinView = ns.map kinView := by
    intro x y hx hy
    have h1 := getD_map_eq kinView ns i default
    have h2 := getD_map_eq kinView ns j default
    rw [List.map_set, List.map_set, hx, hy, ← h1, ← h2, set_getD_self, set_getD_self]
  simp only [pairUpdate]
  apply key
  · split_ifs <;> simp [kinView, mul_zero, zero_mul, add_zero]
  · split_ifs <;> simp [kinView, mul_zero, zero_mul, add_zero]

lemma forcePass_zero_map_kin (ns : List Node) :
    (forcePass 0 ns).map kinView = ns.map kinView := by
  unfold forcePass
  generalize pairIndices ns.length = ps
  induction ps generalizing ns with
  | nil => rfl
  | cons p ps ih => rw [List.foldl_cons, ih, pairUpdate_zero_map_kin]

lemma bounds_of_posView_map (w h : ℝ) (ns ns' : List Node)
    (hmap : ns.map posView = ns'.map posView)
    (hb : ∀ n ∈ ns', -40 ≤ n.x ∧ n.x ≤ w + 40 ∧ -40 ≤ n.y ∧ n.y ≤ h + 40) :
    ∀ n ∈ ns, -40 ≤ n.x ∧ n.x ≤ w + 40 ∧ -40 ≤ n.y ∧ n.y ≤ h + 40 := by
  intro n hn
  have hmem : posView n ∈ ns.map posView := List.mem_map_of_mem _ hn
  rw [hmap] at hmem
  obtain ⟨m, hm, he⟩ := List.mem_map.mp hmem
  have hx : m.x = n.x := congrArg Prod.fst he
  have hy : m.y = n.y := congrArg (fun q => q.2) he
  have hbm := hb m hm
  rw [hx, hy] at hbm
  exact hbm

/-- C5 amended: a tick with `dt = 0` leaves every node's position, velocity
and orbital phases unchanged, provided every node lies within the ±40px wrap
margins of the canvas; the soft wrap (which fires regardless of `dt`) is the
only part of motion integration that can move a node when `dt = 0`. -/
theorem c5_zero_dt_noop (now : ℝ) (rnd : ℕ → StepRand) (s : SimState)
    (hb : ∀ n ∈ s.nodes, -40 ≤ n.x ∧ n.x ≤ s.width + 40 ∧ -40 ≤ n.y ∧ n.y ≤ s.height + 40) :
    (step 0 now rnd s).nodes.map kinView = s.nodes.map kinView := by
  by_cases hc : s.nodes.length = 0
  · unfold step
    rw [if_pos hc]
  · unfold step
    rw [if_neg hc]
    show (motionPass s.noiseSeed s.width s.height 0 now rnd 0
        (forcePass 0 (s.nodes.map fun n => { n with inConstellation := false }))).map kinView
      = s.nodes.map kinView
    have hpos : (forcePass 0 (s.nodes.map fun n =>
        { n with inConstellation := false })).map posView = s.nodes.map posView := by
      rw [map_view_of_stripVC posView (fun n => rfl)
        (forcePass_map_stripVC 0 (s.nodes.map fun n => { n with inConstellation := false }))]
      exact map_view_reset posView (fun n => rfl) s.nodes
    have hb1 := bounds_of_posView_map s.width s.height _ _ hpos hb
    rw [motionPass_zero_dt s.noiseSeed s.width s.height now rnd 0 _ hb1]
    rw [List.map_map]
    have h1 : (kinView ∘ fun n => { n with trail := trailPush n.trail (n.x, n.y, now) })
        = kinView := funext fun n => rfl
    rw [h1, forcePass_zero_map_kin]
    exact map_view_reset kinView (fun n => rfl) s.nodes

/-- Witness for C5 (amended) at a concrete in-bounds one-node state. -/
theorem c5_zero_dt_noop_witness :
    (step 0 0 testStepRand testState).nodes.map kinView = testState.nodes.map kinView :=
  c5_zero_dt_noop 0 testStepRand testState (by
    intro n hn
    have hn' : n = baseNode := by simpa [testState] using hn
    subst hn'
    refine ⟨by norm_num [baseNode], by norm_num [baseNode, testState],
      by norm_num [baseNode], by norm_num [baseNode, testState]⟩)

lemma step_single_node (dt now : ℝ) (rnd : ℕ → StepRand) (s : SimState) (n : Node)
    (hn : s.nodes = [n]) :
    (step dt now rnd s).nodes = [motionUpdate s.noiseSeed s.width s.height dt now (rnd 0)
      { n with inConstellation := false }] := by
  unfold step
  rw [hn]
  rw [if_neg (by simp)]
  rfl

lemma motionUpdate_zero_dt_wrap_low (seed w h now : ℝ) (r : StepRand) (n : Node)
    (hx : n.x < -40) :
    (motionUpdate seed w h 0 now r n).x = w + 40 := by
  show (motionUpdate seed w h 0 now r n).x = w + 40
  simp only [motionUpdate, mul_zero, add_zero]
  rw [if_pos hx]
  rw [if_neg (lt_irrefl (w + 40))]

/-- Counterexample to C5 as stated: for the state whose single node sits at
`x = -50` (beyond the left wrap margin), a tick with `dt = 0` still wraps the
node to `x = width + 40 = 840`, so its position changes. -/
theorem c5_zero_dt_counterexample :
    ((step 0 0 testStepRand outState).nodes.getD 0 default).x = 840 ∧
    (outState.nodes.getD 0 default).x = -50 ∧ (840 : ℝ) ≠ -50 := by
  refine ⟨?_, rfl, by norm_num⟩
  rw [step_single_node 0 0 testStepRand outState outNode rfl]
  rw [List.getD_cons_zero]
  have hx : ({ outNode with inConstellation := false } : Node).x < -40 := by
    show (-50 : ℝ) < -40
    norm_num
  have h := motionUpdate_zero_dt_wrap_low outState.noiseSeed outState.width outState.height 0
    (testStepRand 0) { outNode with inConstellation := false } hx
  rw [h]
  show (800 : ℝ) + 40 = 840
  norm_num

/-! ### C4, C8: concrete two-node ticks -/

lemma step_two_nodes (dt now : ℝ) (rnd : ℕ → StepRand) (s : SimState) (a b : Node)
    (hn : s.nodes = [a, b]) :
    (step dt now rnd s).nodes = motionPass s.noiseSeed s.width s.height dt now rnd 0
      (pairUpdate dt 0 1
        [{ a with inConstellation := false }, { b with inConstellation := false }]) ∧
    (step dt now rnd s).links = rebuildLinks
      (motionPass s.noiseSeed s.width s.height dt now rnd 0
        (pairUpdate dt 0 1
          [{ a with inConstellation := false }, { b with inConstellation := false }])) := by
  unfold step
  rw [hn, if_neg (by simp)]
  exact ⟨rfl, rfl⟩

lemma pairUpdate_two_flags (dt : ℝ) (a b : Node) :
    (pairUpdate dt 0 1 [a, b]).map flagView
      = if Real.sqrt ((b.x - a.x) * (b.x - a.x) + (b.y - a.y) * (b.y - a.y)) + 1e-6
            < PHYS.constellationDistance
        then [true, true] else [a.inConstellation, b.inConstellation] := by
  have hg0 : ([a, b] : List Node).getD 0 default = a := rfl
  have hg1 : ([a, b] : List Node).getD 1 default = b := rfl
  simp only [pairUpdate, hg0, hg1]
  split_ifs <;> rfl

lemma pairUpdate_two_vel_none (dt : ℝ) (a b : Node) (ha1 : a.vx = none) (ha2 : a.vy = none)
    (hb1 : b.vx = none) (hb2 : b.vy = none) :
    (pairUpdate dt 0 1 [a, b]).map velView = [(none, none), (none, none)] := by
  have hg0 : ([a, b] : List Node).getD 0 default = a := rfl
  have hg1 : ([a, b] : List Node).getD 1 default = b := rfl
  simp only [pairUpdate, hg0, hg1]
  split_ifs <;> simp [velView, ha1, ha2, hb1, hb2]

lemma rebuildLinks_two (a b : Node) :
    rebuildLinks [a, b]
      = if hypot (b.x - a.x) (b.y - a.y) < PHYS.constellationDistance
        then [⟨0, 1, hypot (b.x - a.x) (b.y - a.y)⟩] else [] := by
  have hg0 : ([a, b] : List Node).getD 0 default = a := rfl
  have hg1 : ([a, b] : List Node).getD 1 default = b := rfl
  have hpi : pairIndices ([a, b] : List Node).length = [(0, 1)] := rfl
  unfold rebuildLinks
  rw [hpi]
  simp only [List.filterMap_cons, List.filterMap_nil, hg0, hg1]
  split_ifs <;> rfl

lemma rebuildLinks_congr_pos (ns ns' : List Node) (h : ns.map posView = ns'.map posView) :
    rebuildLinks ns = rebuildLinks ns' := by
  have hlen : ns.length = ns'.length := by
    have hh := congrArg List.length h
    simpa using hh
  unfold rebuildLinks
  rw [hlen]
  congr 1
  funext p
  dsimp only
  have e1 : posView (ns.getD p.1 default) = posView (ns'.getD p.1 default) := by
    have ha := getD_map_eq posView ns p.1 default
    have hb := getD_map_eq posView ns' p.1 default
    rw [← ha, ← hb, h]
  have e2 : posView (ns.getD p.2 default) = posView (ns'.getD p.2 default) := by
    have ha := getD_map_eq posView ns p.2 default
    have hb := getD_map_eq posView ns' p.2 default
    rw [← ha, ← hb, h]
  have ex1 : (ns.getD p.1 default).x = (ns'.getD p.1 default).x := congrArg Prod.fst e1
  have ey1 : (ns.getD p.1 default).y = (ns'.getD p.1 default).y := congrArg (fun q => q.2) e1
  have ex2 : (ns.getD p.2 default).x = (ns'.getD p.2 default).x := congrArg Prod.fst e2
  have ey2 : (ns.getD p.2 default).y = (ns'.getD p.2 default).y := congrArg (fun q => q.2) e2
  rw [ex1, ey1, ex2, ey2]

lemma rebuildLinks_map_trail (now : ℝ) (ns : List Node) :
    rebuildLinks (ns.map fun n => { n with trail := trailPush n.trail (n.x, n.y, now) })
      = rebuildLinks ns :=
  rebuildLinks_congr_pos _ _ (by
    rw [List.map_map]
    exact congrArg (fun f => ns.map f) (funext fun _ => rfl))

lemma rebuildLinks_pairUpdate (dt : ℝ) (i j : ℕ) (ns : List Node) :
    rebuildLinks (pairUpdate dt i j ns) = rebuildLinks ns :=
  rebuildLinks_congr_pos _ _
    (map_view_of_stripVC posView (fun _ => rfl) (pairUpdate_map_stripVC dt i j ns))

lemma step_two_flags (dt now : ℝ) (rnd : ℕ → StepRand) (s : SimState) (a b : Node)
    (hn : s.nodes = [a, b]) :
    (step dt now rnd s).nodes.map flagView
      = if Real.sqrt ((b.x - a.x) * (b.x - a.x) + (b.y - a.y) * (b.y - a.y)) + 1e-6
            < PHYS.constellationDistance
        then [true, true] else [false, false] := by
  obtain ⟨hnodes, _⟩ := step_two_nodes dt now rnd s a b hn
  rw [hnodes, motionPass_map_view flagView (fun seed w h dt now r n => rfl),
    pairUpdate_two_flags]

lemma step_two_vel_none (dt now : ℝ) (rnd : ℕ → StepRand) (s : SimState) (a b : Node)
    (hn : s.nodes = [a, b]) (hva1 : a.vx = none) (hva2 : a.vy = none)
    (hvb1 : b.vx = none) (hvb2 : b.vy = none) :
    (step dt now rnd s).nodes.map velView = [(none, none), (none, none)] := by
  obtain ⟨hnodes, _⟩ := step_two_nodes dt now rnd s a b hn
  rw [hnodes, motionPass_map_view velView (fun seed w h dt now r n => rfl)]
  exact pairUpdate_two_vel_none dt _ _ hva1 hva2 hvb1 hvb2

lemma step_two_zero_links (now : ℝ) (rnd : ℕ → StepRand) (s : SimState) (a b : Node)
    (hn : s.nodes = [a, b])
    (ha : -40 ≤ a.x ∧ a.x ≤ s.width + 40 ∧ -40 ≤ a.y ∧ a.y ≤ s.height + 40)
    (hb : -40 ≤ b.x ∧ b.x ≤ s.width + 40 ∧ -40 ≤ b.y ∧ b.y ≤ s.height + 40) :
    (step 0 now rnd s).links
      = if hypot (b.x - a.x) (b.y - a.y) < PHYS.constellationDistance
        then [⟨0, 1, hypot (b.x - a.x) (b.y - a.y)⟩] else [] := by
  obtain ⟨_, hlinks⟩ := step_two_nodes 0 now rnd s a b hn
  have hbnd : ∀ n ∈ pairUpdate 0 0 1
      [{ a with inConstellation := false }, { b with inConstellation := false }],
      -40 ≤ n.x ∧ n.x ≤ s.width + 40 ∧ -40 ≤ n.y ∧ n.y ≤ s.height + 40 := by
    apply bounds_of_posView_map _ _ _ _
      (map_view_of_stripVC posView (fun n => rfl) (pairUpdate_map_stripVC 0 0 1 _))
    intro n hn'
    rw [List.mem_cons, List.mem_singleton] at hn'
    rcases hn' with rfl | rfl
    · exact ha
    · exact hb
  rw [hlinks, motionPass_zero_dt s.noiseSeed s.width s.height now rnd 0 _ hbnd,
    rebuildLinks_map_trail, rebuildLinks_pairUpdate, rebuildLinks_two]

/-- Counterexample to C4 as stated: two nodes exactly 150px apart are NOT
within `constellationDistance` (120): after a tick containing one force pass
and one link rebuild, both constellation flags are `false` and the link set
is empty, not a single link. -/
theorem c4_distance150_counterexample :
    ((step 0 0 testStepRand farState).nodes.getD 0 default).inConstellation = false ∧
    ((step 0 0 testStepRand farState).nodes.getD 1 default).inConstellation = false ∧
    (step 0 0 testStepRand farState).links = [] := by
  have hs : Real.sqrt ((farNode.x - baseNode.x) * (farNode.x - baseNode.x)
      + (farNode.y - baseNode.y) * (farNode.y - baseNode.y)) = 150 := by
    rw [show farNode.x = 250 from rfl, show baseNode.x = 100 from rfl,
      show farNode.y = 100 from rfl, show baseNode.y = 100 from rfl]
    rw [show ((250 : ℝ) - 100) * ((250 : ℝ) - 100) + ((100 : ℝ) - 100) * ((100 : ℝ) - 100)
      = 150 ^ 2 by norm_num]
    exact Real.sqrt_sq (by norm_num)
  have hflag := step_two_flags 0 0 testStepRand farState baseNode farNode rfl
  rw [if_neg (by rw [hs]; norm_num [PHYS.constellationDistance])] at hflag
  have h0 := getD_map_eq flagView (step 0 0 testStepRand farState).nodes 0 default
  rw [hflag] at h0
  have h1 := getD_map_eq flagView (step 0 0 testStepRand farState).nodes 1 default
  rw [hflag] at h1
  have hlinks := step_two_zero_links 0 testStepRand farState baseNode farNode rfl
    ⟨by show (-40 : ℝ) ≤ 100; norm_num, by show (100 : ℝ) ≤ 800 + 40; norm_num,
      by show (-40 : ℝ) ≤ 100; norm_num, by show (100 : ℝ) ≤ 600 + 40; norm_num⟩
    ⟨by show (-40 : ℝ) ≤ 250; norm_num, by show (250 : ℝ) ≤ 800 + 40; norm_num,
      by show (-40 : ℝ) ≤ 100; norm_num, by show (100 : ℝ) ≤ 600 + 40; norm_num⟩
  rw [if_neg (by
    show ¬(Real.sqrt ((farNode.x - baseNode.x) * (farNode.x - baseNode.x)
      + (farNode.y - baseNode.y) * (farNode.y - baseNode.y)) < PHYS.constellationDistance)
    rw [hs]
    norm_num [PHYS.constellationDistance])] at hlinks
  exact ⟨h0.symm.trans rfl, h1.symm.trans rfl, hlinks⟩

/-- C4 amended: two nodes exactly 100px apart (inside
`constellationDistance = 120`, and inside the attraction band since
`100 > minLinkDistance = 48`) are both marked `inConstellation = true` by
the force pass of one tick, and the link builder of the same tick produces
exactly one link, between those two nodes (indices 0 and 1). -/
theorem c4_constellation_pair_at_100 :
    ((step 0 0 testStepRand nearState).nodes.getD 0 default).inConstellation = true ∧
    ((step 0 0 testStepRand nearState).nodes.getD 1 default).inConstellation = true ∧
    (step 0 0 testStepRand nearState).links.map (fun l => (l.i, l.j)) = [(0, 1)] := by
  have hs : Real.sqrt ((midNode.x - baseNode.x) * (midNode.x - baseNode.x)
      + (midNode.y - baseNode.y) * (midNode.y - baseNode.y)) = 100 := by
    rw [show midNode.x = 200 from rfl, show baseNode.x = 100 from rfl,
      show midNode.y = 100 from rfl, show baseNode.y = 100 from rfl]
    rw [show ((200 : ℝ) - 100) * ((200 : ℝ) - 100) + ((100 : ℝ) - 100) * ((100 : ℝ) - 100)
      = 100 ^ 2 by norm_num]
    exact Real.sqrt_sq (by norm_num)
  have hflag := step_two_flags 0 0 testStepRand nearState baseNode midNode rfl
  rw [if_pos (by rw [hs]; norm_num [PHYS.constellationDistance])] at hflag
  have h0 := getD_map_eq flagView (step 0 0 testStepRand nearState).nodes 0 default
  rw [hflag] at h0
  have h1 := getD_map_eq flagView (step 0 0 testStepRand nearState).nodes 1 default
  rw [hflag] at h1
  have hlinks := step_two_zero_links 0 testStepRand nearState baseNode midNode rfl
    ⟨by show (-40 : ℝ) ≤ 100; norm_num, by show (100 : ℝ) ≤ 800 + 40; norm_num,
      by show (-40 : ℝ) ≤ 100; norm_num, by show (100 : ℝ) ≤ 600 + 40; norm_num⟩
    ⟨by show (-40 : ℝ) ≤ 200; norm_num, by show (200 : ℝ) ≤ 800 + 40; norm_num,
      by show (-40 : ℝ) ≤ 100; norm_num, by show (100 : ℝ) ≤ 600 + 40; norm_num⟩
  rw [if_pos (by
    show Real.sqrt ((midNode.x - baseNode.x) * (midNode.x - baseNode.x)
      + (midNode.y - baseNode.y) * (midNode.y - baseNode.y)) < PHYS.constellationDistance
    rw [hs]
    norm_num [PHYS.constellationDistance])] at hlinks
  exact ⟨h0.symm.trans rfl, h1.symm.trans rfl, by rw [hlinks]; rfl⟩

/-- C8: for two freshly constructed nodes at `(100,100)` and `(110,100)`
(distance 10, inside `repulsionDistance = 24` and outside the attraction
band), one tick leaves both nodes' velocities `none` — the model of JS
`undefined`/`NaN`.  The `Node` constructor never initialises `vx`/`vy`
(although the source's header comment says nodes spawn with velocity), so
the repulsion branch's `a.vx -= fx * dt * b.mass` computes
`undefined - number = NaN` instead of the oppositely-signed finite
components the claim describes. -/
theorem c8_repulsion_nan_velocities :
    (Real.sqrt ((c8NodeB.x - c8NodeA.x) * (c8NodeB.x - c8NodeA.x)
        + (c8NodeB.y - c8NodeA.y) * (c8NodeB.y - c8NodeA.y)) + 1e-6
      < PHYS.repulsionDistance) ∧
    ¬(Real.sqrt ((c8NodeB.x - c8NodeA.x) * (c8NodeB.x - c8NodeA.x)
        + (c8NodeB.y - c8NodeA.y) * (c8NodeB.y - c8NodeA.y)) + 1e-6
      > PHYS.minLinkDistance) ∧
    (step 0.016 0 testStepRand c8State).nodes.map velView
      = [(none, none), (none, none)] := by
  have hs : Real.sqrt ((c8NodeB.x - c8NodeA.x) * (c8NodeB.x - c8NodeA.x)
      + (c8NodeB.y - c8NodeA.y) * (c8NodeB.y - c8NodeA.y)) = 10 := by
    rw [show c8NodeB.x = 110 from rfl, show c8NodeA.x = 100 from rfl,
      show c8NodeB.y = 100 from rfl, show c8NodeA.y = 100 from rfl]
    rw [show ((110 : ℝ) - 100) * ((110 : ℝ) - 100) + ((100 : ℝ) - 100) * ((100 : ℝ) - 100)
      = 10 ^ 2 by norm_num]
    exact Real.sqrt_sq (by norm_num)
  refine ⟨by rw [hs]; norm_num [PHYS.repulsionDistance],
    by rw [hs]; norm_num [PHYS.minLinkDistance], ?_⟩
  exact step_two_vel_none 0.016 0 testStepRand c8State c8NodeA c8NodeB rfl rfl rfl rfl rfl

end WordConstellations
